import Mathlib

/-!
Verification development for the NULLspace experiment-browser repository.

The user-visible search, filter, sort, suggestion, related-experiments and
graph-payload behaviour of the repository is implemented in the React
frontend (`App.js`, `SearchBar.js`, `ExperimentModal.js`,
`KnowledgeGraph.js`).  Those functions are embedded below as pure Lean
definitions; JavaScript strings are modelled by Lean `String`
(`toLowerCase` as `Char.toLower` mapping, `trim` as dropping whitespace on
both ends, `includes` as contiguous-substring test).  The backend
knowledge-graph builder is not part of the source tree; where a claim
needs it, it is modelled from the specification and marked as such.
-/

namespace NullSpace

/-- Model of the JavaScript `String.prototype.toLowerCase` call: lower-case
every character. -/
def jsToLower (s : String) : String := ⟨s.data.map Char.toLower⟩

/-- Model of the JavaScript `String.prototype.trim` call: drop whitespace
characters from both ends of the string. -/
def jsTrim (s : String) : String :=
  ⟨((s.data.dropWhile Char.isWhitespace).reverse.dropWhile Char.isWhitespace).reverse⟩

/-- Boolean test that the first list is a leading segment of the second. -/
def leadsChars : List Char → List Char → Bool
  | [], _ => true
  | _ :: _, [] => false
  | c :: cs, d :: ds => c == d && leadsChars cs ds

/-- Boolean contiguous-substring test on character lists: `needle` occurs
somewhere inside `hay`. -/
def hasSub (needle : List Char) : List Char → Bool
  | [] => leadsChars needle []
  | c :: t => leadsChars needle (c :: t) || hasSub needle t

/-- Model of the JavaScript `hay.includes(needle)` substring test. -/
def strIncludes (hay needle : String) : Bool := hasSub needle.data hay.data

/-- The proposition that `needle` occurs contiguously inside `hay`. -/
def SubstrOf (needle hay : List Char) : Prop := ∃ s t, hay = s ++ needle ++ t

/-- An experiment record as the frontend consumes it (shape of the records
in the mock fallback data of `loadExperiments` in `App.js`). -/
structure Exp where
  id : String
  title : String
  summary : String
  organism : String
  mission : String
  keywords : List String
  dataTypes : List String
  publicationCount : Option Int
  duration : String
deriving DecidableEq, Repr

/-- The search predicate of `filteredAndSortedExperiments` in `App.js`:
the lowercased search term is tested with `includes` against the
lowercased title, organism, summary, mission, and each keyword. -/
def matchesSearch (searchTerm : String) (exp : Exp) : Bool :=
  let term := jsToLower searchTerm
  strIncludes (jsToLower exp.title) term ||
  strIncludes (jsToLower exp.organism) term ||
  strIncludes (jsToLower exp.summary) term ||
  strIncludes (jsToLower exp.mission) term ||
  exp.keywords.any (fun keyword => strIncludes (jsToLower keyword) term)

/-- The values of the category-filter dropdown in `App.js`. -/
inductive FilterBy
  | all | plants | animals | microgravity | geneExpression
deriving DecidableEq, Repr

/-- The values of the sort dropdown in `App.js`. -/
inductive SortBy
  | relevance | title | organism | mission | publications
deriving DecidableEq, Repr

/-- The category-filter predicate of `filteredAndSortedExperiments` in
`App.js` (the switch over `filterBy`). -/
def matchesCategory (filterBy : FilterBy) (exp : Exp) : Bool :=
  match filterBy with
  | .plants =>
      strIncludes (jsToLower exp.organism) "arabidopsis" ||
      exp.keywords.any (fun k => strIncludes (jsToLower k) "plant")
  | .animals =>
      strIncludes (jsToLower exp.organism) "mus" ||
      strIncludes (jsToLower exp.organism) "rattus" ||
      strIncludes (jsToLower exp.organism) "homo sapiens"
  | .microgravity =>
      exp.keywords.any (fun k => strIncludes (jsToLower k) "microgravity")
  | .geneExpression =>
      exp.keywords.any (fun k => strIncludes (jsToLower k) "gene")
  | .all => true

/-- Model of `a.localeCompare(b)` as a three-way lexicographic comparison
returning a negative, zero, or positive integer. -/
def strCmp (a b : String) : Int :=
  if a < b then -1 else if b < a then 1 else 0

/-- The sort comparator of `filteredAndSortedExperiments` in `App.js`
(the switch over `sortBy`); the `relevance` default returns `0` for every
pair of records. -/
def sortCmp (sortBy : SortBy) (a b : Exp) : Int :=
  match sortBy with
  | .title => strCmp a.title b.title
  | .organism => strCmp a.organism b.organism
  | .mission => strCmp a.mission b.mission
  | .publications => (b.publicationCount.getD 0) - (a.publicationCount.getD 0)
  | .relevance => 0

/-- Stable insertion of one element into a list according to a three-way
comparator: the element moves left only past elements it compares
strictly below, which is the order a stable `Array.prototype.sort`
guarantees for a consistent comparator. -/
def insertCmp (cmp : α → α → Int) (x : α) : List α → List α
  | [] => [x]
  | y :: ys => if cmp x y < 0 then x :: y :: ys else y :: insertCmp cmp x ys

/-- Stable sort by a three-way comparator, modelling the ECMAScript
stable `Array.prototype.sort`. -/
def stableSort (cmp : α → α → Int) (l : List α) : List α :=
  l.foldl (fun acc x => insertCmp cmp x acc) []

/-- The `filteredAndSortedExperiments` memo of `App.js` as a pure function
of the component inputs: search filter when the trimmed term is nonempty,
category filter when one is chosen, then a stable sort of a copy. -/
def filteredAndSorted (searchTerm : String) (filterBy : FilterBy)
    (sortBy : SortBy) (allExperiments : List Exp) : List Exp :=
  let filtered :=
    if jsTrim searchTerm = "" then allExperiments
    else allExperiments.filter (matchesSearch searchTerm)
  let filtered :=
    if filterBy = FilterBy.all then filtered
    else filtered.filter (matchesCategory filterBy)
  stableSort (sortCmp sortBy) filtered

/-- The `performSearch` callback of `App.js` returns early, issuing no
network request, exactly when the trimmed term is empty; this captures
whether a `/api/search` request is sent. -/
def performSearchSendsRequest (term : String) : Bool :=
  !(jsTrim term == "")

/-- The mock fallback experiment collection of `loadExperiments` in
`App.js`. -/
def mockExperiments : List Exp :=
  [ { id := "GLDS-21"
      title := "Spaceflight Effects on Arabidopsis Gene Expression"
      summary := "Investigation of how microgravity affects plant gene expression patterns in Arabidopsis thaliana."
      organism := "Arabidopsis thaliana"
      mission := "STS-131"
      keywords := ["microgravity", "gene expression", "plants", "spaceflight"]
      dataTypes := ["RNA-Seq", "Microarray"]
      publicationCount := some 12
      duration := "14 days" },
    { id := "GLDS-47"
      title := "Muscle Atrophy in Microgravity"
      summary := "Study of muscle protein degradation pathways in mouse models under simulated microgravity conditions."
      organism := "Mus musculus"
      mission := "Rodent Research-1"
      keywords := ["muscle atrophy", "microgravity", "protein degradation", "mice"]
      dataTypes := ["Proteomics", "Histology"]
      publicationCount := some 8
      duration := "30 days" },
    { id := "GLDS-104"
      title := "Cardiac Function in Space"
      summary := "Analysis of cardiovascular adaptations and cardiac muscle changes during long-duration spaceflight."
      organism := "Homo sapiens"
      mission := "ISS Expedition 42"
      keywords := ["cardiac", "cardiovascular", "spaceflight", "adaptation"]
      dataTypes := ["Echocardiography", "Blood Analysis"]
      publicationCount := some 15
      duration := "180 days" },
    { id := "GLDS-78"
      title := "Bone Density Loss Studies"
      summary := "Investigation of bone mineral density changes and osteoblast activity in microgravity environments."
      organism := "Rattus norvegicus"
      mission := "SpaceX CRS-12"
      keywords := ["bone density", "osteoblast", "calcium", "microgravity"]
      dataTypes := ["X-ray", "Biochemistry"]
      publicationCount := some 6
      duration := "60 days" } ]

/-- The fixed quick-search vocabulary of `SearchBar.js`. -/
def quickSearches : List String :=
  ["microgravity", "gene expression", "muscle atrophy", "arabidopsis",
   "cardiac function", "bone density", "spaceflight", "ISS"]

/-- The suggestion computation of the effect in `SearchBar.js`: for a term
longer than one character, the quick searches that contain the term
case-insensitively and are not case-insensitively equal to it, capped at
four; otherwise no suggestions. -/
def suggestionsFor (searchTerm : String) : List String :=
  if searchTerm.length > 1 then
    (quickSearches.filter (fun term =>
        strIncludes (jsToLower term) (jsToLower searchTerm) &&
        !(jsToLower term == jsToLower searchTerm))).take 4
  else []

/-- The search query the Related Experiments button of
`ExperimentModal.js` dispatches: the first keyword of the experiment, or
the first word of its organism name when it has no keywords. -/
def relatedSearchTerm (e : Exp) : String :=
  match e.keywords with
  | [] => (e.organism.splitOn " ").headD ""
  | k :: _ => k

/-- The related-experiments flow: `handleRelatedExperimentsSearch` in
`App.js` reads only the `query` field of the dispatched event — the
`excludeId` field is ignored — and sets it as the search term, so the
displayed list is the ordinary pipeline over that term with the default
category filter and relevance sort. -/
def relatedResults (e : Exp) (records : List Exp) : List Exp :=
  filteredAndSorted (relatedSearchTerm e) FilterBy.all SortBy.relevance records

/-! Spec-modelled ranking signals.  The backend Search Ranker, Similarity
Index and keyword extractor of the specification are not part of the
source tree; the following definitions model them from the specification
text so the spec-side score can be compared with what the frontend
actually displays. -/

/-- Modelled from the spec: word splitting of free text into lowercased
whitespace-separated tokens; the backend query tokenizer is absent from
the source tree.  Accumulates the current word reversed. -/
def collectWords : List Char → List Char → List (List Char)
  | [], acc => if acc.isEmpty then [] else [acc.reverse]
  | c :: rest, acc =>
      if c.isWhitespace then
        if acc.isEmpty then collectWords rest []
        else acc.reverse :: collectWords rest []
      else collectWords rest (c :: acc)

/-- Modelled from the spec: the lowercased tokens of a text. -/
def textTokens (s : String) : List String :=
  (collectWords (jsToLower s).data []).map fun w => ⟨w⟩

/-- Modelled from the spec: the distinct lowercased tokens of a query. -/
def queryTokens (q : String) : List String := (textTokens q).dedup

/-- Modelled from the spec: how many query tokens appear verbatim
(case-insensitively) in the title, organism, mission, or keywords of a
record. -/
def lexHitCount (q : String) (e : Exp) : Nat :=
  ((queryTokens q).filter fun t =>
      strIncludes (jsToLower e.title) t ||
      strIncludes (jsToLower e.organism) t ||
      strIncludes (jsToLower e.mission) t ||
      e.keywords.any fun k => strIncludes (jsToLower k) t).length

/-- Modelled from the spec: the lexical-containment signal of §4.6 —
fraction of query tokens appearing verbatim (case-insensitively) in the
title, organism, mission, or keywords.  The backend Search Ranker is
absent from the source tree. -/
def specLexicalScore (q : String) (e : Exp) : ℚ :=
  if (queryTokens q).length = 0 then 0
  else (lexHitCount q e : ℚ) / ((queryTokens q).length : ℚ)

/-- Modelled from the spec: how many record keywords match some query
token. -/
def kwHitCount (q : String) (e : Exp) : Nat :=
  (e.keywords.filter fun k => (queryTokens q).any fun t =>
      strIncludes (jsToLower k) t).length

/-- Modelled from the spec: the keyword-salience-overlap signal of §4.6 —
sum of salience scores of record keywords matching query tokens; the
salience algorithm is absent from the source tree, so salience is
modelled as the constant 1 per keyword, normalized by the keyword
count. -/
def specKeywordScore (q : String) (e : Exp) : ℚ :=
  if e.keywords.length = 0 then 0
  else (kwHitCount q e : ℚ) / (e.keywords.length : ℚ)

/-- Modelled from the spec: the canonical text a record is embedded from;
the spec leaves its composition to the absent Similarity Index, modelled
as the record summary text. -/
def canonicalText (e : Exp) : String := e.summary

/-- Modelled from the spec: how many distinct query tokens occur among
the tokens of the canonical text of a record. -/
def embHitCount (q : String) (e : Exp) : Nat :=
  ((queryTokens q).filter fun t =>
      t ∈ (textTokens (canonicalText e)).dedup).length

/-- Modelled from the spec: the embedding-similarity signal of §4.6 — the
embedding model is an opaque deterministic inference call in the spec, so
similarity is modelled as the fraction of distinct query tokens occurring
among the tokens of the canonical text: deterministic for identical input
and valued in the unit interval, as cosine similarity on L2-normalized
vectors is. -/
def specEmbeddingScore (q : String) (e : Exp) : ℚ :=
  if (queryTokens q).length = 0 then 0
  else (embHitCount q e : ℚ) / ((queryTokens q).length : ℚ)

/-- Modelled from the spec: the combined relevance score of §4.6 — the
three per-signal-normalized components added. -/
def specScore (q : String) (e : Exp) : ℚ :=
  specLexicalScore q e + specKeywordScore q e + specEmbeddingScore q e

/-! Concrete records used in counterexamples. -/

/-- A record whose query relevance lives only in its summary while its
title carries no signal. -/
def expBetaX : Exp :=
  { id := "X", title := "beta study", summary := "alpha shared text"
    organism := "org", mission := "m1", keywords := [], dataTypes := []
    publicationCount := none, duration := "" }

/-- A record identical to `expBetaX` except that its title contains the
query, giving it a strictly larger spec-side score. -/
def expAlphaY : Exp :=
  { id := "Y", title := "alpha study", summary := "alpha shared text"
    organism := "org", mission := "m1", keywords := [], dataTypes := []
    publicationCount := none, duration := "" }

/-- A record that matches the query only inside a longer word of its
summary, so every spec-side signal is zero. -/
def expQuokka : Exp :=
  { id := "R1", title := "plain title", summary := "a quokka study"
    organism := "felis catus", mission := "m2", keywords := ["k1"]
    dataTypes := [], publicationCount := none, duration := "" }

/-- A record with a keyword, used to show the related-experiments flow
returns the queried record itself. -/
def expMuscle : Exp :=
  { id := "E1", title := "Muscle Study", summary := "muscle in space"
    organism := "Mus musculus", mission := "SpaceX", keywords := ["microgravity"]
    dataTypes := [], publicationCount := none, duration := "" }

/-- A record found by a query only through its summary text. -/
def expSummaryHit : Exp :=
  { id := "S1", title := "same title", summary := "mentions zebrafish here"
    organism := "same organism", mission := "same mission", keywords := ["same"]
    dataTypes := [], publicationCount := none, duration := "" }

/-- A record agreeing with `expSummaryHit` on title, organism, mission and
keywords but with a summary the query does not match. -/
def expSummaryMiss : Exp :=
  { id := "S2", title := "same title", summary := "nothing relevant"
    organism := "same organism", mission := "same mission", keywords := ["same"]
    dataTypes := [], publicationCount := none, duration := "" }

/-! The knowledge-graph payload of `loadGraphData` in `App.js`, modelled
as nested string-leaf JSON objects. -/

/-- A JSON object all of whose fields hold strings. -/
abbrev FieldObj := List (String × String)

/-- A JSON object whose fields hold string-leaf objects, the shape of one
payload node or edge element. -/
abbrev ElemObj := List (String × FieldObj)

/-- The `nodes` list of the mock knowledge-graph payload in
`loadGraphData` of `App.js`. -/
def mockGraphNodes : List ElemObj :=
  [ [("data", [("id", "microgravity"), ("label", "Microgravity"), ("type", "condition")])],
    [("data", [("id", "gene-expression"), ("label", "Gene Expression"), ("type", "process")])],
    [("data", [("id", "muscle-atrophy"), ("label", "Muscle Atrophy"), ("type", "outcome")])],
    [("data", [("id", "arabidopsis"), ("label", "Arabidopsis"), ("type", "organism")])],
    [("data", [("id", "mouse"), ("label", "Mouse"), ("type", "organism")])] ]

/-- The `edges` list of the mock knowledge-graph payload in
`loadGraphData` of `App.js`. -/
def mockGraphEdges : List ElemObj :=
  [ [("data", [("source", "microgravity"), ("target", "gene-expression"), ("label", "affects")])],
    [("data", [("source", "microgravity"), ("target", "muscle-atrophy"), ("label", "causes")])],
    [("data", [("source", "gene-expression"), ("target", "arabidopsis"), ("label", "studied in")])],
    [("data", [("source", "muscle-atrophy"), ("target", "mouse"), ("label", "observed in")])] ]

/-- The field names of a payload element. -/
def fieldNames (o : ElemObj) : List String := o.map Prod.fst

/-- The field names of a string-leaf payload object. -/
def innerFieldNames (o : FieldObj) : List String := o.map Prod.fst

/-- The first record of the end-to-end scenario of spec §8: organism
Arabidopsis thaliana with keywords microgravity and gene expression. -/
def expGraphA : Exp :=
  { id := "A", title := "A title", summary := "plant study"
    organism := "Arabidopsis thaliana", mission := ""
    keywords := ["microgravity", "gene expression"], dataTypes := []
    publicationCount := none, duration := "" }

/-- The second record of the end-to-end scenario of spec §8: organism Mus
musculus with keywords microgravity and muscle atrophy. -/
def expGraphB : Exp :=
  { id := "B", title := "B title", summary := "mouse study"
    organism := "Mus musculus", mission := ""
    keywords := ["microgravity", "muscle atrophy"], dataTypes := []
    publicationCount := none, duration := "" }

/-! A store of JavaScript arrays, to state the frame property of the
pipeline: references are indices, allocation appends, and
`Array.prototype.sort` overwrites its receiver in place. -/

/-- A heap of JavaScript arrays of experiment records; an array reference
is an index into the store. -/
abbrev Store := List (List Exp)

/-- Allocation of a fresh array holding the given records: appended at
the end of the store, its reference is the previous store length. -/
def allocArr (s : Store) (a : List Exp) : Store × Nat := (s ++ [a], s.length)

/-- Read of the array a reference designates. -/
def readArr (s : Store) (r : Nat) : List Exp := s.getD r []

/-- In-place overwrite of the array a reference designates, as
`Array.prototype.sort` mutates its receiver. -/
def writeArr (s : Store) (r : Nat) (a : List Exp) : Store := s.set r a

/-- The `filteredAndSortedExperiments` memo of `App.js` with explicit
array references: `Array.prototype.filter` allocates fresh arrays, the
spread `[...filtered]` copies into a fresh array, and `sort` mutates only
that fresh copy before its reference is returned. -/
def filteredAndSortedStore (s : Store) (allRef : Nat) (searchTerm : String)
    (filterBy : FilterBy) (sortBy : SortBy) : Store × Nat :=
  let step1 :=
    if jsTrim searchTerm = "" then (s, allRef)
    else allocArr s ((readArr s allRef).filter (matchesSearch searchTerm))
  let step2 :=
    if filterBy = FilterBy.all then step1
    else allocArr step1.1 ((readArr step1.1 step1.2).filter (matchesCategory filterBy))
  let step3 := allocArr step2.1 (readArr step2.1 step2.2)
  (writeArr step3.1 step3.2 (stableSort (sortCmp sortBy) (readArr step3.1 step3.2)),
   step3.2)

/-! Spec-modelled knowledge-graph builder.  The builder (`build(records)`
of §4.5, backed by the Entity Normalizer of §4.1 and the relation
heuristic of §4.3) is not part of the source tree; the following
definitions model it from the specification text. -/

/-- Modelled from the spec: the entity types of the data model. -/
inductive EType
  | organism | mission | condition | process | outcome
deriving DecidableEq, Repr

/-- Modelled from the spec: a normalized entity — identity is the (type,
canonical label) pair. -/
structure Entity where
  etype : EType
  label : String
deriving DecidableEq, Repr

/-- Modelled from the spec: a directed labelled relation between two
entities. -/
structure Relation where
  src : Entity
  tgt : Entity
  lbl : String
deriving DecidableEq, Repr

/-- Modelled from the spec: label canonicalization of §4.1 — lower-case,
strip punctuation, collapse internal whitespace. -/
def normalizeLabel (s : String) : String :=
  String.intercalate " "
    ((collectWords ((jsToLower s).data.filter fun c =>
        c.isAlphanum || c.isWhitespace) []).map fun w => (⟨w⟩ : String))

/-- Modelled from the spec: the small controlled vocabulary of condition
words of §4.1. -/
def conditionVocab : List String := ["microgravity", "radiation"]

/-- Modelled from the spec: the small controlled vocabulary of process
words of §4.1. -/
def processVocab : List String := ["gene expression", "protein degradation"]

/-- Modelled from the spec: the Entity Normalizer of §4.1 — the organism
and mission fields pass through as entities of their types when nonempty,
and keywords are promoted to condition or process entities exactly when
their normalization equals a vocabulary term; unmatched keywords are
dropped.  Returns the deduplicated entity set of one record. -/
def entitiesOf (r : Exp) : List Entity :=
  ((if normalizeLabel r.organism = "" then ([] : List Entity)
    else [Entity.mk EType.organism (normalizeLabel r.organism)]) ++
   (if normalizeLabel r.mission = "" then []
    else [Entity.mk EType.mission (normalizeLabel r.mission)]) ++
   r.keywords.filterMap fun k =>
     let n := normalizeLabel k
     if n ∈ conditionVocab then some (Entity.mk EType.condition n)
     else if n ∈ processVocab then some (Entity.mk EType.process n)
     else none).dedup

/-- Modelled from the spec: the co-occurrence relation heuristic of §4.3 —
a condition and a process entity of the same record yield an `affects`
edge, a process and an outcome entity an `observed-in` edge, and a
process and an organism entity a `studied-in` edge.  Returns the
deduplicated relation set of one record. -/
def relationsOf (r : Exp) : List Relation :=
  let es := entitiesOf r
  let conds := es.filter fun e => e.etype = EType.condition
  let procs := es.filter fun e => e.etype = EType.process
  let outs := es.filter fun e => e.etype = EType.outcome
  let orgs := es.filter fun e => e.etype = EType.organism
  ((conds.map fun c => procs.map fun p => Relation.mk c p "affects").flatten ++
   (procs.map fun p => outs.map fun o => Relation.mk p o "observed-in").flatten ++
   (procs.map fun p => orgs.map fun o => Relation.mk p o "studied-in").flatten).dedup

/-- Modelled from the spec: a knowledge graph — entities with usage
counters and relations with provenance lists of experiment ids. -/
structure KGraph where
  nodes : List (Entity × Nat)
  edges : List (Relation × List String)
deriving DecidableEq, Repr

/-- Modelled from the spec: merging one entity into the node collection —
an existing node has its usage counter incremented, a new one starts at
one. -/
def bumpEntity (ns : List (Entity × Nat)) (e : Entity) : List (Entity × Nat) :=
  match ns with
  | [] => [(e, 1)]
  | (e', n) :: rest =>
      if e' = e then (e', n + 1) :: rest else (e', n) :: bumpEntity rest e

/-- Modelled from the spec: merging one relation into the edge
collection — an existing edge accumulates the experiment id in its
provenance, a new one starts with it. -/
def addProv (es : List (Relation × List String)) (rel : Relation)
    (expId : String) : List (Relation × List String) :=
  match es with
  | [] => [(rel, [expId])]
  | (r', ids) :: rest =>
      if r' = rel then (r', ids ++ [expId]) :: rest
      else (r', ids) :: addProv rest rel expId

/-- Modelled from the spec: folding one record into the graph — its
entity set is merged by identity and its relation set merged by (source,
target, label) with provenance accumulation. -/
def addRecord (g : KGraph) (r : Exp) : KGraph :=
  { nodes := (entitiesOf r).foldl bumpEntity g.nodes
    edges := (relationsOf r).foldl (fun es rel => addProv es rel r.id) g.edges }

/-- Modelled from the spec: `build(records)` of §4.5 — the full record
collection folded into one deduplicated graph starting from the empty
graph. -/
def buildGraph (records : List Exp) : KGraph :=
  records.foldl addRecord ⟨[], []⟩

/-- The usage counter the graph assigns to an entity (zero when the
entity is not a node). -/
def usageOf (g : KGraph) (e : Entity) : Nat :=
  (g.nodes.map fun p => if p.1 = e then p.2 else 0).sum

/-- The provenance count the graph assigns to a relation (zero when the
relation is not an edge). -/
def provCountOf (g : KGraph) (rel : Relation) : Nat :=
  (g.edges.map fun p => if p.1 = rel then p.2.length else 0).sum

/-- Whether an experiment id appears in the provenance of a relation. -/
def provMem (g : KGraph) (rel : Relation) (expId : String) : Prop :=
  ∃ p ∈ g.edges, p.1 = rel ∧ expId ∈ p.2

/-! Basic lemmas about the string model. -/

theorem leadsChars_iff (n h : List Char) :
    leadsChars n h = true ↔ ∃ r, h = n ++ r := by
  induction n generalizing h with
  | nil => simp [leadsChars]
  | cons c cs ih =>
    cases h with
    | nil => simp [leadsChars]
    | cons d ds =>
      simp only [leadsChars, Bool.and_eq_true, beq_iff_eq, ih, List.cons_append]
      constructor
      · rintro ⟨rfl, r, rfl⟩
        exact ⟨r, rfl⟩
      · rintro ⟨r, heq⟩
        injection heq with h1 h2
        exact ⟨h1.symm, r, h2⟩

theorem hasSub_iff (n h : List Char) :
    hasSub n h = true ↔ SubstrOf n h := by
  induction h with
  | nil =>
    simp only [hasSub, leadsChars_iff, SubstrOf]
    constructor
    · rintro ⟨r, hr⟩
      rcases List.append_eq_nil.mp hr.symm with ⟨rfl, rfl⟩
      exact ⟨[], [], rfl⟩
    · rintro ⟨s, t, hst⟩
      rcases List.append_eq_nil.mp hst.symm with ⟨hsn, rfl⟩
      rcases List.append_eq_nil.mp hsn with ⟨rfl, rfl⟩
      exact ⟨[], rfl⟩
  | cons c t ih =>
    simp only [hasSub, Bool.or_eq_true, leadsChars_iff, ih, SubstrOf]
    constructor
    · rintro (⟨r, hr⟩ | ⟨s, u, hu⟩)
      · exact ⟨[], r, by simpa using hr⟩
      · exact ⟨c :: s, u, by simp [hu]⟩
    · rintro ⟨s, u, h⟩
      cases s with
      | nil => exact Or.inl ⟨u, by simpa using h⟩
      | cons a s =>
        rw [List.cons_append, List.cons_append] at h
        injection h with h1 h2
        exact Or.inr ⟨s, u, by simp [h2]⟩

theorem leadsChars_self (l : List Char) : leadsChars l l = true :=
  (leadsChars_iff l l).mpr ⟨[], (List.append_nil l).symm⟩

theorem hasSub_self (l : List Char) : hasSub l l = true :=
  (hasSub_iff l l).mpr ⟨[], [], by simp⟩

theorem strIncludes_self (s : String) : strIncludes s s = true :=
  hasSub_self s.data

theorem jsTrim_eq_empty (s : String)
    (h : ∀ c ∈ s.data, c.isWhitespace = true) : jsTrim s = "" := by
  unfold jsTrim
  have h1 : s.data.dropWhile Char.isWhitespace = [] :=
    List.dropWhile_eq_nil_iff.mpr h
  rw [h1]
  rfl

/-! Lemmas about the stable sort with the relevance comparator. -/

theorem insertCmp_relevance (x : Exp) (l : List Exp) :
    insertCmp (sortCmp SortBy.relevance) x l = l ++ [x] := by
  induction l with
  | nil => rfl
  | cons y ys ih => simp [insertCmp, sortCmp, ih]

theorem foldl_insert_relevance (l acc : List Exp) :
    l.foldl (fun a x => insertCmp (sortCmp SortBy.relevance) x a) acc
      = acc ++ l := by
  induction l generalizing acc with
  | nil => simp
  | cons x xs ih =>
    rw [List.foldl_cons, insertCmp_relevance, ih]
    simp

theorem stableSort_relevance (l : List Exp) :
    stableSort (sortCmp SortBy.relevance) l = l := by
  unfold stableSort
  rw [foldl_insert_relevance]
  rfl

/-! Closed forms of the pipeline for the default filter and sort. -/

theorem filteredAndSorted_of_trim_empty (q : String) (records : List Exp)
    (h : jsTrim q = "") :
    filteredAndSorted q FilterBy.all SortBy.relevance records = records := by
  unfold filteredAndSorted
  simp [h, stableSort_relevance]

theorem filteredAndSorted_of_trim_nonempty (q : String) (records : List Exp)
    (h : jsTrim q ≠ "") :
    filteredAndSorted q FilterBy.all SortBy.relevance records
      = records.filter (matchesSearch q) := by
  unfold filteredAndSorted
  simp [h, stableSort_relevance]

/-! Lemmas about the array store. -/

theorem set_append_singleton (x : List α) (a v : α) :
    (x ++ [a]).set x.length v = x ++ [v] := by
  induction x with
  | nil => rfl
  | cons b t ih => simp [ih]

theorem getD_append_length (x : List α) (a d : α) :
    (x ++ [a]).getD x.length d = a := by
  induction x with
  | nil => rfl
  | cons b t ih => simp [ih]

theorem filteredAndSortedStore_shape (s : Store) (r : Nat) (q : String)
    (fb : FilterBy) (sb : SortBy) :
    ∃ u, (filteredAndSortedStore s r q fb sb).1 = s ++ u ∧
      s.length ≤ (filteredAndSortedStore s r q fb sb).2 := by
  unfold filteredAndSortedStore allocArr writeArr readArr
  by_cases h1 : jsTrim q = "" <;> by_cases h2 : fb = FilterBy.all <;>
    simp only [h1, h2, if_true, if_false, ite_true, ite_false]
  · exact ⟨_, set_append_singleton _ _ _, Nat.le_refl _⟩
  · exact ⟨_, by rw [set_append_singleton, List.append_assoc], by simp⟩
  · exact ⟨_, by rw [set_append_singleton, List.append_assoc], by simp⟩
  · exact ⟨_, by rw [set_append_singleton, List.append_assoc, List.append_assoc],
      by simp⟩

theorem filteredAndSortedStore_agrees (s : Store) (r : Nat) (q : String)
    (fb : FilterBy) (sb : SortBy) :
    readArr (filteredAndSortedStore s r q fb sb).1
        (filteredAndSortedStore s r q fb sb).2
      = filteredAndSorted q fb sb (readArr s r) := by
  unfold filteredAndSortedStore filteredAndSorted allocArr writeArr readArr
  by_cases h1 : jsTrim q = "" <;> by_cases h2 : fb = FilterBy.all <;>
    simp only [h1, h2, if_true, if_false, ite_true, ite_false] <;>
    rw [set_append_singleton] <;>
    (repeat rw [getD_append_length])

/-! Closed forms for the spec-modelled knowledge-graph builder. -/

theorem usage_bumpEntity (ns : List (Entity × Nat)) (a e : Entity) :
    ((bumpEntity ns a).map fun p => if p.1 = e then p.2 else 0).sum
      = ((ns.map fun p => if p.1 = e then p.2 else 0).sum
          + if a = e then 1 else 0) := by
  induction ns with
  | nil =>
    by_cases h : a = e <;> simp [bumpEntity, h]
  | cons hd tl ih =>
    obtain ⟨e', n⟩ := hd
    by_cases h : e' = a
    · by_cases h2 : a = e
      · simp only [bumpEntity, if_pos h, List.map_cons, List.sum_cons,
          if_pos (h.trans h2), if_pos h2]
        omega
      · have h3 : ¬ e' = e := fun hh => h2 (h.symm.trans hh)
        simp only [bumpEntity, if_pos h, List.map_cons, List.sum_cons,
          if_neg h3, if_neg h2]
        omega
    · simp only [bumpEntity, if_neg h, List.map_cons, List.sum_cons, ih]
      omega

theorem usage_foldl_bump (es : List Entity) (ns : List (Entity × Nat))
    (e : Entity) :
    ((es.foldl bumpEntity ns).map fun p => if p.1 = e then p.2 else 0).sum
      = ((ns.map fun p => if p.1 = e then p.2 else 0).sum + es.count e) := by
  induction es generalizing ns with
  | nil => simp
  | cons a tl ih =>
    rw [List.foldl_cons, ih, usage_bumpEntity, List.count_cons]
    by_cases h : a = e
    · simp only [h, beq_self_eq_true, if_pos rfl, if_true]
      omega
    · have h' : ¬ e = a := fun hh => h hh.symm
      simp only [if_neg h, beq_iff_eq, if_neg h']
      omega

theorem usageOf_buildGraph (l : List Exp) (e : Entity) :
    usageOf (buildGraph l) e = (l.map fun r => (entitiesOf r).count e).sum := by
  suffices h : ∀ g : KGraph,
      usageOf (l.foldl addRecord g) e
        = usageOf g e + (l.map fun r => (entitiesOf r).count e).sum by
    simpa [buildGraph, usageOf] using h ⟨[], []⟩
  induction l with
  | nil => simp
  | cons r tl ih =>
    intro g
    rw [List.foldl_cons, ih]
    unfold usageOf addRecord
    rw [usage_foldl_bump]
    simp
    omega

theorem prov_addProv (es : List (Relation × List String)) (rel r : Relation)
    (i : String) :
    ((addProv es rel i).map fun p => if p.1 = r then p.2.length else 0).sum
      = ((es.map fun p => if p.1 = r then p.2.length else 0).sum
          + if rel = r then 1 else 0) := by
  induction es with
  | nil =>
    by_cases h : rel = r <;> simp [addProv, h]
  | cons hd tl ih =>
    obtain ⟨r', ids⟩ := hd
    by_cases h : r' = rel
    · by_cases h2 : rel = r
      · simp only [addProv, if_pos h, List.map_cons, List.sum_cons,
          if_pos (h.trans h2), if_pos h2, List.length_append,
          List.length_cons, List.length_nil]
        omega
      · have h3 : ¬ r' = r := fun hh => h2 (h.symm.trans hh)
        simp only [addProv, if_pos h, List.map_cons, List.sum_cons,
          if_neg h3, if_neg h2]
        omega
    · simp only [addProv, if_neg h, List.map_cons, List.sum_cons, ih]
      omega

theorem prov_foldl_add (rels : List Relation)
    (es : List (Relation × List String)) (r : Relation) (i : String) :
    (((rels.foldl (fun acc rel => addProv acc rel i) es).map
        fun p => if p.1 = r then p.2.length else 0).sum)
      = ((es.map fun p => if p.1 = r then p.2.length else 0).sum
          + rels.count r) := by
  induction rels generalizing es with
  | nil => simp
  | cons a tl ih =>
    rw [List.foldl_cons, ih, prov_addProv, List.count_cons]
    by_cases h : a = r
    · simp only [h, beq_self_eq_true, if_pos rfl, if_true]
      omega
    · have h' : ¬ r = a := fun hh => h hh.symm
      simp only [if_neg h, beq_iff_eq, if_neg h']
      omega

theorem provCountOf_buildGraph (l : List Exp) (r : Relation) :
    provCountOf (buildGraph l) r
      = (l.map fun rec => (relationsOf rec).count r).sum := by
  suffices h : ∀ g : KGraph,
      provCountOf (l.foldl addRecord g) r
        = provCountOf g r + (l.map fun rec => (relationsOf rec).count r).sum by
    simpa [buildGraph, provCountOf] using h ⟨[], []⟩
  induction l with
  | nil => simp
  | cons rc tl ih =>
    intro g
    rw [List.foldl_cons, ih]
    unfold provCountOf addRecord
    rw [prov_foldl_add]
    simp
    omega

theorem mem_addProv (es : List (Relation × List String)) (rel r : Relation)
    (i j : String) :
    (∃ p ∈ addProv es rel i, p.1 = r ∧ j ∈ p.2)
      ↔ ((∃ p ∈ es, p.1 = r ∧ j ∈ p.2) ∨ (rel = r ∧ j = i)) := by
  induction es with
  | nil => simp [addProv]
  | cons hd tl ih =>
    obtain ⟨r', ids⟩ := hd
    by_cases h : r' = rel
    · simp only [addProv, if_pos h, List.mem_cons]
      constructor
      · rintro ⟨p, hp | hp, h1, h2⟩
        · subst hp
          rcases List.mem_append.mp h2 with hin | hin
          · exact Or.inl ⟨(r', ids), Or.inl rfl, h1, hin⟩
          · exact Or.inr ⟨h.symm.trans h1, List.mem_singleton.mp hin⟩
        · exact Or.inl ⟨p, Or.inr hp, h1, h2⟩
      · rintro (⟨p, hp | hp, h1, h2⟩ | ⟨h1, h2⟩)
        · subst hp
          exact ⟨(r', ids ++ [i]), Or.inl rfl, h1, List.mem_append.mpr (Or.inl h2)⟩
        · exact ⟨p, Or.inr hp, h1, h2⟩
        · exact ⟨(r', ids ++ [i]), Or.inl rfl, h.trans h1,
            List.mem_append.mpr (Or.inr (List.mem_singleton.mpr h2))⟩
    · simp only [addProv, if_neg h, List.mem_cons]
      constructor
      · rintro ⟨p, hp | hp, h1, h2⟩
        · subst hp
          exact Or.inl ⟨(r', ids), Or.inl rfl, h1, h2⟩
        · rcases ih.mp ⟨p, hp, h1, h2⟩ with ⟨p', hp', h1', h2'⟩ | hx
          · exact Or.inl ⟨p', Or.inr hp', h1', h2'⟩
          · exact Or.inr hx
      · rintro (⟨p, hp | hp, h1, h2⟩ | hx)
        · subst hp
          exact ⟨(r', ids), Or.inl rfl, h1, h2⟩
        · rcases ih.mpr (Or.inl ⟨p, hp, h1, h2⟩) with ⟨p', hp', h1', h2'⟩
          exact ⟨p', Or.inr hp', h1', h2'⟩
        · rcases ih.mpr (Or.inr hx) with ⟨p', hp', h1', h2'⟩
          exact ⟨p', Or.inr hp', h1', h2'⟩

theorem mem_foldl_addProv (rels : List Relation)
    (es : List (Relation × List String)) (r : Relation) (i j : String) :
    (∃ p ∈ rels.foldl (fun acc rel => addProv acc rel i) es,
        p.1 = r ∧ j ∈ p.2)
      ↔ ((∃ p ∈ es, p.1 = r ∧ j ∈ p.2) ∨ (r ∈ rels ∧ j = i)) := by
  induction rels generalizing es with
  | nil => simp
  | cons a tl ih =>
    rw [List.foldl_cons, ih, mem_addProv]
    simp only [List.mem_cons]
    constructor
    · rintro ((h | ⟨rfl, rfl⟩) | ⟨hm, rfl⟩)
      · exact Or.inl h
      · exact Or.inr ⟨Or.inl rfl, rfl⟩
      · exact Or.inr ⟨Or.inr hm, rfl⟩
    · rintro (h | ⟨(rfl | hm), rfl⟩)
      · exact Or.inl (Or.inl h)
      · exact Or.inl (Or.inr ⟨rfl, rfl⟩)
      · exact Or.inr ⟨hm, rfl⟩

theorem provMem_buildGraph (l : List Exp) (r : Relation) (j : String) :
    provMem (buildGraph l) r j
      ↔ ∃ rec ∈ l, r ∈ relationsOf rec ∧ rec.id = j := by
  suffices h : ∀ g : KGraph,
      (∃ p ∈ (l.foldl addRecord g).edges, p.1 = r ∧ j ∈ p.2)
        ↔ ((∃ p ∈ g.edges, p.1 = r ∧ j ∈ p.2)
            ∨ ∃ rec ∈ l, r ∈ relationsOf rec ∧ rec.id = j) by
    have := h ⟨[], []⟩
    simpa [buildGraph, provMem] using this
  induction l with
  | nil => simp
  | cons rc tl ih =>
    intro g
    rw [List.foldl_cons, ih]
    unfold addRecord
    rw [mem_foldl_addProv]
    simp only [List.mem_cons]
    constructor
    · rintro ((h | ⟨hm, rfl⟩) | ⟨rec, hrec, hrel, rfl⟩)
      · exact Or.inl h
      · exact Or.inr ⟨rc, Or.inl rfl, hm, rfl⟩
      · exact Or.inr ⟨rec, Or.inr hrec, hrel, rfl⟩
    · rintro (h | ⟨rec, (rfl | hrec), hrel, rfl⟩)
      · exact Or.inl (Or.inl h)
      · exact Or.inl (Or.inr ⟨hrel, rfl⟩)
      · exact Or.inr ⟨rec, hrec, hrel, rfl⟩

/-! Additional list helpers. -/

theorem take_append_self (x u : List α) : (x ++ u).take x.length = x := by
  induction x with
  | nil => rfl
  | cons b t ih => simp [ih]

theorem getD_append_left (x u : List α) (i : Nat) (d : α)
    (h : i < x.length) : (x ++ u).getD i d = x.getD i d := by
  induction x generalizing i with
  | nil => simp at h
  | cons b t ih =>
    cases i with
    | zero => rfl
    | succ j =>
      have hj : j < t.length := by simpa using h
      simpa using ih j hj

/-! Claim theorems. -/

/-- C1: searching with the empty query returns the record collection
unchanged — original insertion order, nothing excluded, nothing
reordered, hence no scoring of any kind influences the outcome — and
`performSearch` issues no search request for it. -/
theorem c1_empty_query_identity (records : List Exp) :
    filteredAndSorted "" FilterBy.all SortBy.relevance records = records ∧
    performSearchSendsRequest "" = false :=
  ⟨filteredAndSorted_of_trim_empty "" records rfl, by decide⟩

/-- C2 counterexample: for the query "alpha" over two records whose
spec-modelled combined relevance scores provably differ (the second
record scores strictly higher), the code returns them in insertion order
with the lower-scored record first — ordering is insertion order even for
records whose scores do not tie, contradicting the claim. -/
theorem c2_counterexample :
    filteredAndSorted "alpha" FilterBy.all SortBy.relevance
        [expBetaX, expAlphaY] = [expBetaX, expAlphaY] ∧
    specScore "alpha" expBetaX < specScore "alpha" expAlphaY := by
  constructor
  · decide
  · have hx : specScore "alpha" expBetaX = 1 := by
      unfold specScore specLexicalScore specKeywordScore specEmbeddingScore
      norm_num [show (queryTokens "alpha").length = 1 from rfl,
        show lexHitCount "alpha" expBetaX = 0 from rfl,
        show embHitCount "alpha" expBetaX = 1 from rfl,
        show expBetaX.keywords = [] from rfl]
    have hy : specScore "alpha" expAlphaY = 2 := by
      unfold specScore specLexicalScore specKeywordScore specEmbeddingScore
      norm_num [show (queryTokens "alpha").length = 1 from rfl,
        show lexHitCount "alpha" expAlphaY = 1 from rfl,
        show embHitCount "alpha" expAlphaY = 1 from rfl,
        show expAlphaY.keywords = [] from rfl]
    rw [hx, hy]
    norm_num

/-- C2 (amended): for every query with non-empty trimmed text, the
results are exactly the substring-filtered records in their original
insertion order — no relevance score is computed and the relevance sort
leaves the filter order unchanged for every pair of records, tied or
not. -/
theorem c2_results_in_insertion_order (q : String) (records : List Exp)
    (h : jsTrim q ≠ "") :
    filteredAndSorted q FilterBy.all SortBy.relevance records
      = records.filter (matchesSearch q) :=
  filteredAndSorted_of_trim_nonempty q records h

/-- Witness for the amended C2 statement at a concrete query and the mock
collection. -/
theorem c2_results_in_insertion_order_witness :
    jsTrim "microgravity" ≠ "" ∧
    filteredAndSorted "microgravity" FilterBy.all SortBy.relevance
        mockExperiments
      = mockExperiments.filter (matchesSearch "microgravity") :=
  ⟨by decide,
   c2_results_in_insertion_order "microgravity" mockExperiments (by decide)⟩

/-- C3 counterexample: the record `expQuokka` has zero lexical
containment, zero keyword-salience overlap, and zero embedding similarity
with the query "uokk" under the spec-modelled signals, yet the code keeps
it in the results, because the query matches inside a longer summary
word. -/
theorem c3_counterexample :
    specLexicalScore "uokk" expQuokka = 0 ∧
    specKeywordScore "uokk" expQuokka = 0 ∧
    specEmbeddingScore "uokk" expQuokka = 0 ∧
    expQuokka ∈ filteredAndSorted "uokk" FilterBy.all SortBy.relevance
        [expQuokka] := by
  refine ⟨?_, ?_, ?_, by decide⟩
  · unfold specLexicalScore
    norm_num [show (queryTokens "uokk").length = 1 from rfl,
      show lexHitCount "uokk" expQuokka = 0 from rfl]
  · unfold specKeywordScore
    norm_num [show kwHitCount "uokk" expQuokka = 0 from rfl,
      show expQuokka.keywords = ["k1"] from rfl]
  · unfold specEmbeddingScore
    norm_num [show (queryTokens "uokk").length = 1 from rfl,
      show embHitCount "uokk" expQuokka = 0 from rfl]

/-- C3 (amended): a record the lowercased query occurs in none of title,
organism, summary, mission, or keywords of — the code-side match is
false — is absent from the results of a query with non-empty trimmed
text: excluded entirely, not ranked last. -/
theorem c3_no_match_excluded (q : String) (records : List Exp) (r : Exp)
    (hq : jsTrim q ≠ "") (hm : matchesSearch q r = false) :
    r ∉ filteredAndSorted q FilterBy.all SortBy.relevance records := by
  rw [filteredAndSorted_of_trim_nonempty q records hq]
  intro hmem
  have hpred := (List.mem_filter.mp hmem).2
  rw [hm] at hpred
  exact Bool.false_ne_true hpred

/-- Witness for the amended C3 statement: a record that does not match a
concrete query is excluded from the mock collection results. -/
theorem c3_no_match_excluded_witness :
    matchesSearch "zzzq" expQuokka = false ∧
    expQuokka ∉ filteredAndSorted "zzzq" FilterBy.all SortBy.relevance
        mockExperiments :=
  ⟨by decide,
   c3_no_match_excluded "zzzq" mockExperiments expQuokka (by decide) (by decide)⟩

/-- C4 counterexample: the related-experiments flow for `expMuscle` over
a collection containing it returns a list that contains the queried
experiment id itself — the `excludeId` carried by the dispatched event is
never read, and the result is a keyword search rather than a top-k
similarity lookup. -/
theorem c4_counterexample :
    expMuscle.id ∈ (relatedResults expMuscle [expMuscle]).map Exp.id := by
  decide

/-- C4 (amended): the related-experiments operation searches for the
first keyword of the experiment (or the first word of its organism name)
through the ordinary pipeline and does not exclude the queried id:
whenever the experiment belongs to the collection and has at least one
keyword, it appears in its own related results. -/
theorem c4_related_contains_self (e : Exp) (records : List Exp)
    (hmem : e ∈ records) (hk : e.keywords ≠ []) :
    e ∈ relatedResults e records := by
  unfold relatedResults
  obtain ⟨k, ks, hke⟩ := List.exists_cons_of_ne_nil hk
  by_cases ht : jsTrim (relatedSearchTerm e) = ""
  · rw [filteredAndSorted_of_trim_empty _ _ ht]
    exact hmem
  · rw [filteredAndSorted_of_trim_nonempty _ _ ht]
    refine List.mem_filter.mpr ⟨hmem, ?_⟩
    have hterm : relatedSearchTerm e = k := by
      unfold relatedSearchTerm
      rw [hke]
    rw [hterm]
    simp only [matchesSearch, Bool.or_eq_true]
    right
    rw [List.any_eq_true]
    refine ⟨k, ?_, strIncludes_self _⟩
    rw [hke]
    exact List.mem_cons_self k ks

/-- Witness for the amended C4 statement: a concrete experiment appears
in its own related results. -/
theorem c4_related_contains_self_witness :
    expMuscle ∈ relatedResults expMuscle [expMuscle] :=
  c4_related_contains_self expMuscle [expMuscle] (by decide) (by decide)

/-- C5 counterexample: two records agreeing on title, organism, mission,
and keywords but differing in summary receive different inclusion for the
query "zebrafish" — the summary field contributes to matching and to
inclusion, contradicting the claim that only the four named fields do. -/
theorem c5_counterexample :
    expSummaryHit.title = expSummaryMiss.title ∧
    expSummaryHit.organism = expSummaryMiss.organism ∧
    expSummaryHit.mission = expSummaryMiss.mission ∧
    expSummaryHit.keywords = expSummaryMiss.keywords ∧
    filteredAndSorted "zebrafish" FilterBy.all SortBy.relevance
        [expSummaryHit, expSummaryMiss] = [expSummaryHit] := by
  decide

/-- C5 (amended): the search match tests the lowercased whole query as a
contiguous substring of the lowercased title, organism, summary, mission,
or one of the keywords — the summary contributes alongside the four
spec-named fields, and matching is whole-query substring containment
rather than per-token verbatim matching. -/
theorem c5_match_fields_characterization (q : String) (e : Exp) :
    matchesSearch q e = true ↔
      (SubstrOf (jsToLower q).data (jsToLower e.title).data ∨
       SubstrOf (jsToLower q).data (jsToLower e.organism).data ∨
       SubstrOf (jsToLower q).data (jsToLower e.summary).data ∨
       SubstrOf (jsToLower q).data (jsToLower e.mission).data ∨
       ∃ k ∈ e.keywords, SubstrOf (jsToLower q).data (jsToLower k).data) := by
  simp only [matchesSearch, strIncludes, Bool.or_eq_true, List.any_eq_true,
    hasSub_iff]
  tauto

/-- C6 counterexample: the first node of the knowledge-graph payload is
an object whose only field is `data`, not an object with top-level fields
id, label, and type. -/
theorem c6_counterexample :
    mockGraphNodes.headD [] ∈ mockGraphNodes ∧
    fieldNames (mockGraphNodes.headD []) ≠ ["id", "label", "type"] := by
  decide

/-- C6 (amended): every node of the payload is an object with the single
field `data` whose value carries exactly the fields id, label, and type,
and every edge an object with the single field `data` whose value carries
exactly source, target, and label — the Cytoscape element format the
graph component consumes. -/
theorem c6_payload_wraps_data :
    (mockGraphNodes.all fun n =>
        fieldNames n == ["data"] &&
        n.all fun f => innerFieldNames f.2 == ["id", "label", "type"]) = true ∧
    (mockGraphEdges.all fun e =>
        fieldNames e == ["data"] &&
        e.all fun f => innerFieldNames f.2 == ["source", "target", "label"]) = true := by
  decide

/-- C7: the search-filter-sort pipeline never mutates its inputs: every
array that existed in the store before the call — the loaded record
collection included — is unchanged, the result lives in a freshly
allocated array, and the fresh array holds exactly the pure pipeline
value.  Records themselves are immutable values throughout. -/
theorem c7_pipeline_preserves_inputs (s : Store) (r : Nat) (q : String)
    (fb : FilterBy) (sb : SortBy) :
    (filteredAndSortedStore s r q fb sb).1.take s.length = s ∧
    (∀ i, i < s.length →
      readArr (filteredAndSortedStore s r q fb sb).1 i = readArr s i) ∧
    s.length ≤ (filteredAndSortedStore s r q fb sb).2 ∧
    readArr (filteredAndSortedStore s r q fb sb).1
        (filteredAndSortedStore s r q fb sb).2
      = filteredAndSorted q fb sb (readArr s r) := by
  obtain ⟨u, hu, hlen⟩ := filteredAndSortedStore_shape s r q fb sb
  refine ⟨?_, ?_, hlen, filteredAndSortedStore_agrees s r q fb sb⟩
  · rw [hu]
    exact take_append_self s u
  · intro i hi
    rw [hu]
    unfold readArr
    exact getD_append_left s u i [] hi

/-- Witness for C7: after running the pipeline over a store holding the
mock collection, the original array still reads back unchanged. -/
theorem c7_pipeline_preserves_inputs_witness :
    readArr (filteredAndSortedStore [mockExperiments] 0 "cardiac"
        FilterBy.all SortBy.relevance).1 0 = mockExperiments := by
  have h := (c7_pipeline_preserves_inputs [mockExperiments] 0 "cardiac"
    FilterBy.all SortBy.relevance).2.1 0 (by decide)
  rw [h]
  rfl

/-- C8: building the spec-modelled knowledge graph over any permutation
of the record collection yields identical graph content: every entity
keeps the same usage counter, every relation the same provenance count,
and the same experiment ids in its provenance — hence identical node and
edge sets with identical counters; in particular a collection and its
reverse build equal graphs. -/
theorem c8_buildGraph_perm_invariant (l₁ l₂ : List Exp) (h : l₁.Perm l₂) :
    (∀ e, usageOf (buildGraph l₁) e = usageOf (buildGraph l₂) e) ∧
    (∀ rel, provCountOf (buildGraph l₁) rel = provCountOf (buildGraph l₂) rel) ∧
    (∀ rel i, provMem (buildGraph l₁) rel i ↔ provMem (buildGraph l₂) rel i) := by
  refine ⟨?_, ?_, ?_⟩
  · intro e
    rw [usageOf_buildGraph, usageOf_buildGraph]
    exact (h.map _).sum_eq
  · intro rel
    rw [provCountOf_buildGraph, provCountOf_buildGraph]
    exact (h.map _).sum_eq
  · intro rel i
    rw [provMem_buildGraph, provMem_buildGraph]
    constructor
    · rintro ⟨rec, hrec, hx⟩
      exact ⟨rec, h.mem_iff.mp hrec, hx⟩
    · rintro ⟨rec, hrec, hx⟩
      exact ⟨rec, h.mem_iff.mpr hrec, hx⟩

/-- Witness for C8 at the two-record scenario of spec §8 and its
reverse: the usage counter of the microgravity condition node agrees. -/
theorem c8_buildGraph_perm_invariant_witness :
    usageOf (buildGraph [expGraphA, expGraphB])
        (Entity.mk EType.condition "microgravity")
      = usageOf (buildGraph [expGraphB, expGraphA])
        (Entity.mk EType.condition "microgravity") :=
  (c8_buildGraph_perm_invariant [expGraphA, expGraphB] [expGraphB, expGraphA]
    (List.reverse_perm [expGraphA, expGraphB]).symm).1 _

/-- C9: a query consisting only of whitespace behaves exactly as the
empty query: it trims to the empty string before the emptiness test, no
search request is issued, no filtering is applied, and all records come
back in original order. -/
theorem c9_whitespace_query_like_empty (q : String) (records : List Exp)
    (h : ∀ c ∈ q.data, c.isWhitespace = true) :
    jsTrim q = "" ∧
    performSearchSendsRequest q = false ∧
    filteredAndSorted q FilterBy.all SortBy.relevance records = records := by
  have ht := jsTrim_eq_empty q h
  refine ⟨ht, ?_, filteredAndSorted_of_trim_empty q records ht⟩
  simp [performSearchSendsRequest, ht]

/-- Witness for C9 at a concrete whitespace-only query over the mock
collection. -/
theorem c9_whitespace_query_like_empty_witness :
    (∀ c ∈ ("  \t ").data, c.isWhitespace = true) ∧
    filteredAndSorted "  \t " FilterBy.all SortBy.relevance mockExperiments
      = mockExperiments :=
  ⟨by decide,
   (c9_whitespace_query_like_empty "  \t " mockExperiments (by decide)).2.2⟩

/-- C10: the suggestion list is empty for terms of length at most one;
otherwise it holds at most four entries, each drawn from the fixed
quick-search vocabulary, each containing the typed term
case-insensitively, and none case-insensitively equal to the term. -/
theorem c10_suggestion_properties (t : String) :
    (t.length ≤ 1 → suggestionsFor t = []) ∧
    (suggestionsFor t).length ≤ 4 ∧
    ∀ s ∈ suggestionsFor t, s ∈ quickSearches ∧
      strIncludes (jsToLower s) (jsToLower t) = true ∧
      jsToLower s ≠ jsToLower t := by
  refine ⟨?_, ?_, ?_⟩
  · intro h
    unfold suggestionsFor
    rw [if_neg (by omega)]
  · unfold suggestionsFor
    split
    · exact le_trans (List.length_take_le _ _) (le_refl 4)
    · simp
  · intro s hs
    unfold suggestionsFor at hs
    split at hs
    · have hs' := List.mem_of_mem_take hs
      have h2 := List.mem_filter.mp hs'
      have hand := h2.2
      rw [Bool.and_eq_true] at hand
      refine ⟨h2.1, hand.1, ?_⟩
      intro hcontra
      have hb := hand.2
      rw [hcontra] at hb
      simp at hb
    · cases hs

/-- Witness for C10 at concrete terms: one over the length threshold and
one under it. -/
theorem c10_suggestion_properties_witness :
    (suggestionsFor "gene").length ≤ 4 ∧ suggestionsFor "a" = [] :=
  ⟨(c10_suggestion_properties "gene").2.1,
   (c10_suggestion_properties "a").1 (by decide)⟩

end NullSpace
